import Mathlib

/-
Verification of the row rendering controller (RowController) of the ag-grid
row renderer: a shallow embedding of the cell slot map, the per container
reconcile pass, the row type classifier, the full width refresh, the editing
state machine, the second pass callback queues and the two phase destroy,
together with proofs of the specified properties.
-/

set_option autoImplicit false

namespace AgRow

/-- Pinned side of a column, mirroring Constants.PINNED_LEFT and
Constants.PINNED_RIGHT; a column with neither is a center column. -/
inductive Pinned where
  | left
  | right
deriving DecidableEq

/-- The three cell bearing row containers of a row in normal mode
(centerRowComp, leftRowComp, rightRowComp). -/
inductive Container where
  | center
  | left
  | right
deriving DecidableEq

/-- Column model object as the controller observes it. The field id models
column.getId() and pinned models column.getPinned(). The field instanceId
models JavaScript object identity: two Column values denote the same object
exactly when they are equal, which mirrors the reference equality check
existingCell.getColumn() === col (ids can be reused by distinct instances,
for example during pivot refresh). -/
structure Column where
  id : String
  instanceId : Nat
  pinned : Option Pinned
deriving DecidableEq

/-- Materialized cell component (CellComp) as far as the row controller
observes it: its bound column (getColumn), the row container its gui is
attached to (getParentRow) and whether it is editing (isEditing). -/
structure Cell where
  column : Column
  parentRow : Container
  editing : Bool
deriving DecidableEq

/-- The cellComps object: a JavaScript object from column id to CellComp or
null, kept in key insertion order. Keys stay present after destroyCells
writes null, which is what Object.keys later sees. -/
abbrev CellMap := List (String × Option Cell)

/-- Reading this.cellComps[key]: an absent key (undefined) and a null entry
both behave as a missing cell. -/
def lookupCell : CellMap → String → Option Cell
  | [], _ => none
  | (k1, v1) :: rest, k => if k1 = k then v1 else lookupCell rest k

/-- Writing this.cellComps[key] = v: updates the entry in place when the key
exists, otherwise appends it, matching JavaScript object key insertion
order. -/
def setCell : CellMap → String → Option Cell → CellMap
  | [], k, v => [(k, v)]
  | (k1, v1) :: rest, k, v =>
    if k1 = k then (k, v) :: rest else (k1, v1) :: setCell rest k v

/-- Observable reconcile and teardown effects: newCellComp appending a fresh
cell, detach plus destroy of an existing cell, and setDomChildOrder on a
container. -/
inductive RAction where
  | created (col : Column) (cont : Container)
  | destroyed (key : String) (cell : Cell)
  | reordered (cont : Container)
deriving DecidableEq

/-- Entries of the removeSecondPassFuncs queue: externally registered
callbacks (represented by tokens) and the destroyContainingCells closure
pushed by destroy when animating. -/
inductive SecondPassFunc where
  | callbackFunc (token : Nat)
  | destroyCellsFunc
deriving DecidableEq

/-- Full width cell renderer as observed by refreshFullWidth: refresh is none
when the component exposes no refresh method, otherwise some of the value the
refresh call returns for the freshly computed params of this row. -/
structure FullWidthCellComp where
  refresh : Option Bool
deriving DecidableEq

/-- A RowComp as observed by refreshFullWidth: it may hold a full width cell
renderer (getFullWidthRowComp). -/
structure RowCompFW where
  fullWidthCellComp : Option FullWidthCellComp
deriving DecidableEq

/-- Row level notifications dispatched on the event service by the modelled
operations. -/
inductive GridEvent where
  | rowValueChanged
  | rowEditingStarted
  | rowEditingStopped
  | virtualRowRemoved
deriving DecidableEq

/-- RowController state observed and mutated by the modelled operations.
cellComps, the flags and the animation callback queues mirror the fields of
the same names; queuedRefreshTasks counts the refreshCellsInAnimationFrame
tasks this row has put on the shared task queue and that have not run yet;
the four row comp fields are the representations refreshFullWidth visits. -/
structure RowState where
  active : Bool
  printLayout : Bool
  editingRow : Bool
  elementOrderChanged : Bool
  cellComps : CellMap
  rowContainerReadyCount : Nat
  refreshNeeded : Bool
  columnRefreshPending : Bool
  queuedRefreshTasks : Nat
  createSecondPassFuncs : List Nat
  removeFirstPassFuncs : List Nat
  removeSecondPassFuncs : List SecondPassFunc
  fullWidthRowDestroyFuncs : List Nat
  fullWidthRowComp : Option RowCompFW
  centerRowComp : Option RowCompFW
  leftRowComp : Option RowCompFW
  rightRowComp : Option RowCompFW
deriving DecidableEq

/-- Column model and configuration reads performed by the reconcile pass: the
full displayed column list (getAllDisplayedColumns), the per row viewport
center and pinned lists, the focus controller answer per column for this row,
and the ensureDomOrder and suppressAnimationFrame configuration flags. -/
structure ColumnEnv where
  allDisplayedColumns : List Column
  viewportCenterColumns : List Column
  displayedLeftColumns : List Column
  displayedRightColumns : List Column
  focusedCols : List Column
  ensureDomOrder : Bool
  suppressAnimationFrame : Bool
deriving DecidableEq

/-- getContainerForCell: left and right pinned cells live in the pinned row
comps, anything else in the center row comp. -/
def getContainerForCell : Option Pinned → Container
  | some Pinned.left => Container.left
  | some Pinned.right => Container.right
  | _ => Container.center

/-- isCellInWrongContainer: the desired container derived from the pinned
state of the bound column differs from the container the cell sits in. -/
def isCellInWrongContainer (cell : Cell) : Bool :=
  decide (getContainerForCell cell.column.pinned ≠ cell.parentRow)

/-- destroyCells over the cellComps map: for each id in order, when a cell is
present it is detached and destroyed (recorded as an action) and its entry is
set to null; a missing or null entry is skipped. -/
def destroyCellsMap : CellMap → List String → CellMap × List RAction
  | m, [] => (m, [])
  | m, key :: rest =>
    match lookupCell m key with
    | none => destroyCellsMap m rest
    | some cell =>
      let r := destroyCellsMap (setCell m key none) rest
      (r.1, RAction.destroyed key cell :: r.2)

/-- newCellComp: create a fresh CellComp for the column (editing follows the
row editing flag passed to the CellComp constructor), record it under the
column id and append its gui to the container. -/
def newCellComp (st : RowState) (col : Column) (cont : Container) : RowState :=
  let cellComp := Cell.mk col cont st.editingRow
  { st with cellComps := setCell st.cellComps col.id (some cellComp) }

/-- One iteration of the cols.forEach loop in insertCellsIntoContainer: keep
the existing cell when it is bound to the same column object and does not sit
in the wrong container; otherwise destroy any existing cell under the id
first, then create a fresh cell in this container and flag the element order
as changed. -/
def insertStep (st : RowState) (cont : Container) (col : Column) :
    RowState × List RAction :=
  match lookupCell st.cellComps col.id with
  | some existingCell =>
    if existingCell.column = col ∧ isCellInWrongContainer existingCell = false then
      (st, [])
    else
      let r := destroyCellsMap st.cellComps [col.id]
      let st1 := { st with cellComps := r.1 }
      let st2 := newCellComp st1 col cont
      ({ st2 with elementOrderChanged := true },
        r.2 ++ [RAction.created col cont])
  | none =>
      let st2 := newCellComp st col cont
      ({ st2 with elementOrderChanged := true },
        [RAction.created col cont])

/-- The cols.forEach loop of insertCellsIntoContainer over a whole target
list, in order. -/
def insertCols (st : RowState) (cont : Container) :
    List Column → RowState × List RAction
  | [] => (st, [])
  | col :: rest =>
    let r1 := insertStep st cont col
    let r2 := insertCols r1.1 cont rest
    (r2.1, r1.2 ++ r2.2)

/-- insertCellsIntoContainer: run the per column loop, then, when an element
order change is pending and ensureDomOrder is configured, reorder the
container children to match the target list (setDomChildOrder). -/
def insertCellsIntoContainer (env : ColumnEnv) (st : RowState)
    (cont : Container) (cols : List Column) : RowState × List RAction :=
  let r := insertCols st cont cols
  if r.1.elementOrderChanged && env.ensureDomOrder then
    (r.1, r.2 ++ [RAction.reordered cont])
  else
    (r.1, r.2)

/-- isCellEligibleToBeRemoved: a missing cell or a cell in the wrong pinned
container is always removed; an editing or focused cell is kept exactly when
its bound column is still in the full displayed column list; any other cell
is removed. -/
def isCellEligibleToBeRemoved (env : ColumnEnv) (st : RowState)
    (indexStr : String) : Bool :=
  let displayedColumns := env.allDisplayedColumns
  match lookupCell st.cellComps indexStr with
  | none => true
  | some renderedCell =>
    if isCellInWrongContainer renderedCell then true
    else
      let editing := renderedCell.editing
      let focused := decide (renderedCell.column ∈ env.focusedCols)
      if editing || focused then
        if renderedCell.column ∈ displayedColumns then false else true
      else true

/-- Center target list of the pass: all displayed columns in print layout,
otherwise the viewport center columns for this row. -/
def selCenterCols (env : ColumnEnv) (printLayout : Bool) : List Column :=
  if printLayout then env.allDisplayedColumns else env.viewportCenterColumns

/-- Left target list of the pass: empty in print layout, otherwise the
displayed left columns for this row. -/
def selLeftCols (env : ColumnEnv) (printLayout : Bool) : List Column :=
  if printLayout then [] else env.displayedLeftColumns

/-- Right target list of the pass: empty in print layout, otherwise the
displayed right columns for this row. -/
def selRightCols (env : ColumnEnv) (printLayout : Bool) : List Column :=
  if printLayout then [] else env.displayedRightColumns

/-- The column ids of all three target lists of one reconcile pass. -/
def reconcileTargetIds (env : ColumnEnv) (printLayout : Bool) : List String :=
  (selCenterCols env printLayout ++ selLeftCols env printLayout ++
    selRightCols env printLayout).map Column.id

/-- A column is correctly materialized in a container when the cell slot
under its id is bound to this very column instance and attached to this
container (proof abbreviation). -/
def goodCell (st : RowState) (cont : Container) (col : Column) : Prop :=
  ∃ e, lookupCell st.cellComps col.id = some (Cell.mk col cont e)

/-- refreshCellsInAnimationFrame: a no op when the row is no longer active;
otherwise clear the pending flag, run insertCellsIntoContainer on the three
containers with their target lists (a normal row has all three row comps),
reset elementOrderChanged, compute the removal candidates as the cellComps
keys minus every target id, filter them through isCellEligibleToBeRemoved and
destroy the eligible ones. -/
def refreshCellsInAnimationFrame (env : ColumnEnv) (st : RowState) :
    RowState × List RAction :=
  if st.active = false then (st, []) else
  let st0 := { st with columnRefreshPending := false }
  let centerCols := selCenterCols env st0.printLayout
  let leftCols := selLeftCols env st0.printLayout
  let rightCols := selRightCols env st0.printLayout
  let r1 := insertCellsIntoContainer env st0 Container.center centerCols
  let r2 := insertCellsIntoContainer env r1.1 Container.left leftCols
  let r3 := insertCellsIntoContainer env r2.1 Container.right rightCols
  let st4 := { r3.1 with elementOrderChanged := false }
  let ids0 := st4.cellComps.map Prod.fst
  let ids1 := centerCols.foldl (fun acc col => acc.erase col.id) ids0
  let ids2 := leftCols.foldl (fun acc col => acc.erase col.id) ids1
  let colIdsToRemove := rightCols.foldl (fun acc col => acc.erase col.id) ids2
  let eligibleToBeRemoved :=
    colIdsToRemove.filter (fun k => isCellEligibleToBeRemoved env st4 k)
  let r4 := destroyCellsMap st4.cellComps eligibleToBeRemoved
  ({ st4 with cellComps := r4.1 }, r1.2 ++ r2.2 ++ r3.2 ++ r4.2)

/-- The row state reached after the three container insert passes of one
reconcile run, with the element order flag reset: the state at which the
removal candidates are evaluated (proof abbreviation for the body of
refreshCellsInAnimationFrame before its removal step). -/
def pass1State (env : ColumnEnv) (st : RowState) : RowState :=
  { (insertCols
      (insertCols
        (insertCols { st with columnRefreshPending := false }
          Container.center (selCenterCols env st.printLayout)).1
        Container.left (selLeftCols env st.printLayout)).1
      Container.right (selRightCols env st.printLayout)).1
    with elementOrderChanged := false }

/-- The removal candidate ids of one reconcile run: the cellComps keys at the
pass one state minus one occurrence of every target column id (proof
abbreviation for the colIdsToRemove computation). -/
def removalIds (env : ColumnEnv) (st : RowState) : List String :=
  (selRightCols env st.printLayout).foldl (fun acc col => acc.erase col.id)
    ((selLeftCols env st.printLayout).foldl (fun acc col => acc.erase col.id)
      ((selCenterCols env st.printLayout).foldl (fun acc col => acc.erase col.id)
        ((pass1State env st).cellComps.map Prod.fst)))

/-- refreshCells: when not all three containers have built their initial
cells yet, only record that a refresh is needed; otherwise either run the
refresh synchronously (animation frames suppressed or print layout) or put a
refreshCellsInAnimationFrame task on the shared task queue, unless the
columnRefreshPending flag claims one is already outstanding. -/
def refreshCells (env : ColumnEnv) (st : RowState) : RowState × List RAction :=
  if st.rowContainerReadyCount ≠ 3 then
    ({ st with refreshNeeded := true }, [])
  else
    let suppressAnimationFrame := env.suppressAnimationFrame
    let skipAnimationFrame := suppressAnimationFrame || st.printLayout
    if skipAnimationFrame then
      refreshCellsInAnimationFrame env st
    else if st.columnRefreshPending then (st, [])
    else ({ st with queuedRefreshTasks := st.queuedRefreshTasks + 1 }, [])

/-- Row classification enum of the controller. -/
inductive RowType where
  | Normal
  | FullWidth
  | FullWidthLoading
  | FullWidthGroup
  | FullWidthDetail
deriving DecidableEq

/-- Inputs setRowType reads from the row node and from the grid
configuration. The field isGroupUseEntireRow is the configuration predicate,
applied by the code to the pivot mode flag. -/
structure RowTypeInput where
  stub : Bool
  detail : Bool
  doingMasterDetail : Bool
  fullWidthCell : Bool
  pivotMode : Bool
  group : Bool
  footer : Bool
  isGroupUseEntireRow : Bool → Bool

/-- setRowType: classify the row once at construction. Full width is used
only for groups, not footers. -/
def setRowType (i : RowTypeInput) : RowType :=
  let isStub := i.stub
  let isFullWidthCell := i.fullWidthCell
  let isDetailCell := i.doingMasterDetail && i.detail
  let pivotMode := i.pivotMode
  let isGroupRow := i.group && !i.footer
  let isFullWidthGroup := isGroupRow && i.isGroupUseEntireRow pivotMode
  if isStub then RowType.FullWidthLoading
  else if isDetailCell then RowType.FullWidthDetail
  else if isFullWidthCell then RowType.FullWidth
  else if isFullWidthGroup then RowType.FullWidthGroup
  else RowType.Normal

/-- Modelled from the spec: the classifier decision order exactly as the spec
states it, first match wins: stub or placeholder row, then detail row under
master detail mode, then row marked full width by the data source, then non
footer group row with group rows configured to render at full width, then
Normal. -/
def classifySpec (i : RowTypeInput) : RowType :=
  if i.stub then RowType.FullWidthLoading
  else if i.doingMasterDetail && i.detail then RowType.FullWidthDetail
  else if i.fullWidthCell then RowType.FullWidth
  else if i.group && !i.footer && i.isGroupUseEntireRow i.pivotMode then
    RowType.FullWidthGroup
  else RowType.Normal

/-- The tryRefresh helper of refreshFullWidth: a missing row comp or a row
comp without a full width cell comp needs no refresh and counts as success; a
cell comp without a refresh method forces failure; otherwise the refresh call
result decides. -/
def tryRefresh (rowComp : Option RowCompFW) : Bool :=
  match rowComp with
  | none => true
  | some rc =>
    match rc.fullWidthCellComp with
    | none => true
    | some cellComp =>
      match cellComp.refresh with
      | none => false
      | some refreshSucceeded => refreshSucceeded

/-- refreshFullWidth: try to refresh each of the four possible full width
representations in place and report whether all of them succeeded. -/
def refreshFullWidth (st : RowState) : Bool :=
  let normalSuccess := tryRefresh st.fullWidthRowComp
  let bodySuccess := tryRefresh st.centerRowComp
  let leftSuccess := tryRefresh st.leftRowComp
  let rightSuccess := tryRefresh st.rightRowComp
  normalSuccess && bodySuccess && leftSuccess && rightSuccess

/-- Success of one full width representation as the spec words it: the
representation is absent, or its refresh capability is present and reported
success. -/
def fullWidthRepOk : Option RowCompFW → Prop
  | none => True
  | some rc =>
    match rc.fullWidthCellComp with
    | none => True
    | some cellComp => cellComp.refresh = some true

/-- forEachCellComp visits the non null entries of cellComps in key insertion
order. -/
def materializedCells (st : RowState) : List (String × Cell) :=
  st.cellComps.filterMap (fun p =>
    match p.2 with
    | some c => some (p.1, c)
    | none => none)

/-- setEditingRow: record the new row editing flag and dispatch the
corresponding editing started or stopped notification. -/
def setEditingRow (st : RowState) (value : Bool) : RowState × List GridEvent :=
  ({ st with editingRow := value },
   [if value then GridEvent.rowEditingStarted else GridEvent.rowEditingStopped])

/-- stopEditing: first propagate stop with the cancel flag to every
materialized cell comp, then return early when the row is not editing;
otherwise dispatch rowValueChanged unless cancelled and move the row to not
editing, dispatching rowEditingStopped. Returns the new state, the per cell
stop signals and the dispatched notifications. -/
def stopEditing (st : RowState) (cancel : Bool) :
    RowState × List (String × Bool) × List GridEvent :=
  let cellSignals := (materializedCells st).map (fun p => (p.1, cancel))
  if st.editingRow = false then (st, cellSignals, [])
  else
    let valueEvents := if cancel then [] else [GridEvent.rowValueChanged]
    let r := setEditingRow st false
    (r.1, cellSignals, valueEvents ++ r.2)

/-- A start editing signal delivered to one cell comp: the cell that started
the edit receives the literal key and char press and cellStartedEdit true,
every other cell receives a neutral signal. -/
structure StartSignal where
  key : String
  keyPress : Option Int
  charPress : Option String
  cellStartedEdit : Bool
deriving DecidableEq

/-- startRowEditing: a no op when the row is already editing; otherwise
propagate a start signal to every materialized cell comp (the source cell
gets the key and char press) and move the row to editing, dispatching
rowEditingStarted. -/
def startRowEditing (st : RowState) (keyPress : Option Int)
    (charPress : Option String) (sourceRenderedCell : Option (String × Cell)) :
    RowState × List StartSignal × List GridEvent :=
  if st.editingRow then (st, [], [])
  else
    let cellSignals := (materializedCells st).map (fun p =>
      if sourceRenderedCell = some p then
        StartSignal.mk p.1 keyPress charPress true
      else
        StartSignal.mk p.1 none none false)
    let r := setEditingRow st true
    (r.1, cellSignals, r.2)

/-- getAndClearNextVMTurnFunctions: return the create second pass queue and
clear it so the functions are never executed twice. -/
def getAndClearNextVMTurnFunctions (st : RowState) : List Nat × RowState :=
  (st.createSecondPassFuncs, { st with createSecondPassFuncs := [] })

/-- getAndClearDelayedDestroyFunctions: return the remove second pass queue
and clear it so the functions are never executed twice. -/
def getAndClearDelayedDestroyFunctions (st : RowState) :
    List SecondPassFunc × RowState :=
  (st.removeSecondPassFuncs, { st with removeSecondPassFuncs := [] })

/-- destroyContainingCells: destroy the cells under every key of the
cellComps object. -/
def destroyContainingCells (st : RowState) : RowState × List RAction :=
  let r := destroyCellsMap st.cellComps (st.cellComps.map Prod.fst)
  ({ st with cellComps := r.1 }, r.2)

/-- Execution of a list of remove second pass functions by the external per
frame driver: callback tokens are external effects that leave the row state
alone, the destroyContainingCells closure destroys the remaining cells. -/
def runSecondPassFuncs (st : RowState) :
    List SecondPassFunc → RowState × List RAction
  | [] => (st, [])
  | SecondPassFunc.callbackFunc _ :: rest => runSecondPassFuncs st rest
  | SecondPassFunc.destroyCellsFunc :: rest =>
    let r1 := destroyContainingCells st
    let r2 := runSecondPassFuncs r1.1 rest
    (r2.1, r1.2 ++ r2.2)

/-- Everything one destroy call produces: the final state, the remove first
pass callbacks it ran synchronously, the cell teardown actions it performed
and the notifications it dispatched. -/
structure DestroyOutcome where
  state : RowState
  firstPassRun : List Nat
  cellActs : List RAction
  events : List GridEvent
deriving DecidableEq

/-- destroy(animate): clear the active flag and tear down the full width
pieces; when animating, run every remove first pass callback now and push the
destroyContainingCells closure onto removeSecondPassFuncs for the external
driver; otherwise destroy the containing cells now and also fetch and run the
delayed destroy functions so they execute exactly once. Finally dispatch
virtualRowRemoved. -/
def destroy (st : RowState) (animate : Bool) : DestroyOutcome :=
  let st0 := { st with active := false, fullWidthRowDestroyFuncs := [] }
  if animate then
    let st1 := { st0 with removeSecondPassFuncs :=
      st0.removeSecondPassFuncs ++ [SecondPassFunc.destroyCellsFunc] }
    DestroyOutcome.mk st1 st0.removeFirstPassFuncs []
      [GridEvent.virtualRowRemoved]
  else
    let r1 := destroyContainingCells st0
    let gc := getAndClearDelayedDestroyFunctions r1.1
    let r2 := runSecondPassFuncs gc.2 gc.1
    DestroyOutcome.mk r2.1 [] (r1.2 ++ r2.2) [GridEvent.virtualRowRemoved]

/-- A quiescent normal mode row state used as the base of the concrete
examples: active, not print layout, not editing, no cells, all three
containers ready, empty queues. -/
def baseRowState : RowState :=
  { active := true, printLayout := false, editingRow := false,
    elementOrderChanged := false, cellComps := [],
    rowContainerReadyCount := 3, refreshNeeded := false,
    columnRefreshPending := false, queuedRefreshTasks := 0,
    createSecondPassFuncs := [], removeFirstPassFuncs := [],
    removeSecondPassFuncs := [], fullWidthRowDestroyFuncs := [],
    fullWidthRowComp := none, centerRowComp := none,
    leftRowComp := none, rightRowComp := none }

/-- A column environment with no columns and animation frames not
suppressed, used for the scheduling example. -/
def schedEnv : ColumnEnv :=
  { allDisplayedColumns := [], viewportCenterColumns := [],
    displayedLeftColumns := [], displayedRightColumns := [],
    focusedCols := [], ensureDomOrder := false,
    suppressAnimationFrame := false }

/-- The base row state with the row editing flag set. -/
def editingRowState : RowState :=
  { baseRowState with editingRow := true }

/-- A plain center column with id a. -/
def colA0 : Column := Column.mk "a" 0 none

/-- A second column instance reusing the id a, as produced for example by a
pivot refresh. -/
def colA1 : Column := Column.mk "a" 1 none

/-- A plain center column with id b. -/
def colB0 : Column := Column.mk "b" 0 none

/-- A left pinned column with id b. -/
def colB0L : Column := Column.mk "b" 0 (some Pinned.left)

/-- The base row state holding one non editing cell for column a in the
center container. -/
def stWithCellA : RowState :=
  { baseRowState with
    cellComps := [("a", some (Cell.mk colA0 Container.center false))] }

/-- Classifier input describing a footer group row with group rows configured
to render at full width. -/
def footerGroupInput : RowTypeInput :=
  { stub := false, detail := false, doingMasterDetail := false,
    fullWidthCell := false, pivotMode := false, group := true,
    footer := true, isGroupUseEntireRow := fun _ => true }

/-- A left pinned column with id c1, whose materialized cell sits in the
center container while editing: the wrong container exemption example. -/
def colC1 : Column := Column.mk "c1" 0 (some Pinned.left)

/-- An editing cell bound to colC1 but attached to the center container. -/
def cellC1 : Cell := Cell.mk colC1 Container.center true

/-- Environment where colC1 is still displayed but absent from every target
list of the pass. -/
def envC1 : ColumnEnv :=
  { allDisplayedColumns := [colC1], viewportCenterColumns := [],
    displayedLeftColumns := [], displayedRightColumns := [],
    focusedCols := [], ensureDomOrder := false,
    suppressAnimationFrame := false }

/-- Row state holding the editing, wrongly placed cell for colC1. -/
def stC1 : RowState := { baseRowState with cellComps := [("c1", some cellC1)] }

/-- An editing cell bound to colA0 sitting correctly in the center
container. -/
def cellA0Edit : Cell := Cell.mk colA0 Container.center true

/-- Environment where colA0 is still displayed but scrolled out of every
target list of the pass. -/
def envA0Out : ColumnEnv :=
  { allDisplayedColumns := [colA0], viewportCenterColumns := [],
    displayedLeftColumns := [], displayedRightColumns := [],
    focusedCols := [], ensureDomOrder := false,
    suppressAnimationFrame := false }

/-- Row state holding the editing cell for colA0 in its correct container. -/
def stA0Edit : RowState :=
  { baseRowState with cellComps := [("a", some cellA0Edit)] }

/-- Environment with one center column a and one left pinned column b, both
displayed, used for the idempotence example. -/
def envAB : ColumnEnv :=
  { allDisplayedColumns := [colA0, colB0L],
    viewportCenterColumns := [colA0],
    displayedLeftColumns := [colB0L], displayedRightColumns := [],
    focusedCols := [], ensureDomOrder := true,
    suppressAnimationFrame := false }

section MapLemmas

theorem lookup_setCell_self (m : CellMap) (k : String) (v : Option Cell) :
    lookupCell (setCell m k v) k = v := by
  induction m with
  | nil => simp [setCell, lookupCell]
  | cons p rest ih =>
    obtain ⟨k1, v1⟩ := p
    by_cases h : k1 = k
    · subst h
      simp [setCell, lookupCell]
    · simp [setCell, lookupCell, h, ih]

theorem lookup_setCell_ne (m : CellMap) (k : String) (v : Option Cell)
    (k' : String) (h : k' ≠ k) :
    lookupCell (setCell m k v) k' = lookupCell m k' := by
  induction m with
  | nil => simp [setCell, lookupCell, Ne.symm h]
  | cons p rest ih =>
    obtain ⟨k1, v1⟩ := p
    by_cases h1 : k1 = k
    · subst h1
      simp [setCell, lookupCell, Ne.symm h]
    · simp [setCell, lookupCell, h1, ih]

theorem mem_keys_of_lookup_some (m : CellMap) (k : String) (c : Cell)
    (h : lookupCell m k = some c) : k ∈ m.map Prod.fst := by
  induction m with
  | nil => simp [lookupCell] at h
  | cons p rest ih =>
    obtain ⟨k1, v1⟩ := p
    by_cases h1 : k1 = k
    · subst h1; simp
    · simp only [lookupCell, if_neg h1] at h
      simp [ih h]

theorem lookup_eq_none_of_not_mem_keys (m : CellMap) (k : String)
    (h : k ∉ m.map Prod.fst) : lookupCell m k = none := by
  cases hc : lookupCell m k with
  | none => rfl
  | some c => exact absurd (mem_keys_of_lookup_some m k c hc) h

theorem keys_setCell_of_mem (m : CellMap) (k : String) (v : Option Cell)
    (h : k ∈ m.map Prod.fst) :
    (setCell m k v).map Prod.fst = m.map Prod.fst := by
  induction m with
  | nil => simp at h
  | cons p rest ih =>
    obtain ⟨k1, v1⟩ := p
    by_cases h1 : k1 = k
    · subst h1; simp [setCell]
    · have h2 : k ∈ rest.map Prod.fst := by
        rcases List.mem_cons.mp h with h3 | h3
        · exact absurd h3.symm h1
        · exact h3
      simp [setCell, h1, ih h2]

theorem keys_setCell_of_not_mem (m : CellMap) (k : String) (v : Option Cell)
    (h : k ∉ m.map Prod.fst) :
    (setCell m k v).map Prod.fst = m.map Prod.fst ++ [k] := by
  induction m with
  | nil => simp [setCell]
  | cons p rest ih =>
    obtain ⟨k1, v1⟩ := p
    have h1 : k1 ≠ k := by
      intro hh
      exact h (by simp [hh])
    have h2 : k ∉ rest.map Prod.fst := fun hh => h (by simp [hh])
    simp [setCell, h1, ih h2]

theorem nodup_keys_setCell (m : CellMap) (k : String) (v : Option Cell)
    (h : (m.map Prod.fst).Nodup) :
    ((setCell m k v).map Prod.fst).Nodup := by
  by_cases hm : k ∈ m.map Prod.fst
  · rw [keys_setCell_of_mem m k v hm]; exact h
  · rw [keys_setCell_of_not_mem m k v hm]
    simp [List.nodup_append, h, hm]

theorem lookup_destroyCellsMap_of_none (l : List String) (m : CellMap)
    (k : String) (h : lookupCell m k = none) :
    lookupCell (destroyCellsMap m l).1 k = none := by
  induction l generalizing m with
  | nil => simpa [destroyCellsMap]
  | cons key rest ih =>
    cases hk : lookupCell m key with
    | none => simpa [destroyCellsMap, hk] using ih m h
    | some cell =>
      simp only [destroyCellsMap, hk]
      apply ih
      by_cases he : key = k
      · subst he; rw [lookup_setCell_self]
      · rw [lookup_setCell_ne m key none k (fun hh => he hh.symm)]
        exact h

theorem lookup_destroyCellsMap_not_mem (l : List String) (m : CellMap)
    (k : String) (h : k ∉ l) :
    lookupCell (destroyCellsMap m l).1 k = lookupCell m k := by
  induction l generalizing m with
  | nil => simp [destroyCellsMap]
  | cons key rest ih =>
    have hne : k ≠ key := fun hh => h (by simp [hh])
    have hrest : k ∉ rest := fun hh => h (by simp [hh])
    cases hk : lookupCell m key with
    | none => simpa [destroyCellsMap, hk] using ih m hrest
    | some cell =>
      simp only [destroyCellsMap, hk]
      rw [ih (setCell m key none) hrest]
      exact lookup_setCell_ne m key none k hne

theorem lookup_destroyCellsMap_mem (l : List String) (m : CellMap)
    (k : String) (h : k ∈ l) :
    lookupCell (destroyCellsMap m l).1 k = none := by
  induction l generalizing m with
  | nil => cases h
  | cons key rest ih =>
    cases hk : lookupCell m key with
    | none =>
      rcases List.mem_cons.mp h with rfl | hr
      · simpa [destroyCellsMap, hk] using lookup_destroyCellsMap_of_none rest m k hk
      · simpa [destroyCellsMap, hk] using ih m hr
    | some cell =>
      simp only [destroyCellsMap, hk]
      rcases List.mem_cons.mp h with rfl | hr
      · exact lookup_destroyCellsMap_of_none rest (setCell m k none) k
          (lookup_setCell_self m k none)
      · exact ih (setCell m key none) hr

theorem destroyCellsMap_of_all_none (l : List String) (m : CellMap)
    (h : ∀ k ∈ l, lookupCell m k = none) :
    destroyCellsMap m l = (m, []) := by
  induction l with
  | nil => rfl
  | cons key rest ih =>
    have hk : lookupCell m key = none := h key (by simp)
    simp only [destroyCellsMap, hk]
    exact ih (fun k hk2 => h k (by simp [hk2]))

theorem keys_destroyCellsMap (l : List String) (m : CellMap) :
    (destroyCellsMap m l).1.map Prod.fst = m.map Prod.fst := by
  induction l generalizing m with
  | nil => simp [destroyCellsMap]
  | cons key rest ih =>
    cases hk : lookupCell m key with
    | none => simpa [destroyCellsMap, hk] using ih m
    | some cell =>
      simp only [destroyCellsMap, hk]
      rw [ih (setCell m key none)]
      exact keys_setCell_of_mem m key none (mem_keys_of_lookup_some m key cell hk)

end MapLemmas

/-- Claim C2 context: the code checks the columnRefreshPending flag before
putting a refresh task on the queue and clears it when the task runs, but no
code path ever sets it; evaluated at a ready, non print, non suppressed row,
a second refresh request issued before the queued task runs enqueues a second
task instead of being dropped, and the flag stays false throughout. -/
theorem refreshCells_enqueues_every_request :
    ((refreshCells schedEnv baseRowState).1.queuedRefreshTasks = 1
      ∧ (refreshCells schedEnv baseRowState).1.columnRefreshPending = false)
    ∧ ((refreshCells schedEnv
          (refreshCells schedEnv baseRowState).1).1.queuedRefreshTasks = 2
      ∧ (refreshCells schedEnv
          (refreshCells schedEnv baseRowState).1).1.columnRefreshPending
            = false) := by
  decide

/-- Claim C3: row classification at construction follows the first match
wins order stub, detail under master detail, data source full width, non
footer group row under group full width configuration, Normal; in particular
a footer group row never classifies as FullWidthGroup. -/
theorem setRowType_matches_spec_order (i : RowTypeInput) :
    setRowType i = classifySpec i
  ∧ (i.footer = true → setRowType i ≠ RowType.FullWidthGroup) := by
  obtain ⟨s, d, m, f, p, g, ft, fn⟩ := i
  constructor
  · unfold setRowType classifySpec
    cases s <;> cases d <;> cases m <;> cases f <;> cases g <;> cases ft <;>
      simp [Bool.and_assoc]
  · intro hft
    simp only at hft
    subst hft
    unfold setRowType
    cases s <;> cases d <;> cases m <;> cases f <;> cases g <;> simp

/-- Witness for claim C3 at a footer group row with group full width
enabled: classification agrees with the spec order and is not
FullWidthGroup. -/
theorem setRowType_matches_spec_order_witness :
    footerGroupInput.footer = true
  ∧ setRowType footerGroupInput = classifySpec footerGroupInput
  ∧ setRowType footerGroupInput ≠ RowType.FullWidthGroup :=
  ⟨rfl, (setRowType_matches_spec_order footerGroupInput).1,
    (setRowType_matches_spec_order footerGroupInput).2 rfl⟩

/-- Claim C6: refreshFullWidth returns true exactly when each of the four
possible full width representations is absent or its refresh call reported
success; a materialized representation without a refresh capability makes the
result false. -/
theorem refreshFullWidth_true_iff (st : RowState) :
    refreshFullWidth st = true ↔
      (fullWidthRepOk st.fullWidthRowComp ∧ fullWidthRepOk st.centerRowComp
        ∧ fullWidthRepOk st.leftRowComp ∧ fullWidthRepOk st.rightRowComp) := by
  have h : ∀ rc : Option RowCompFW, tryRefresh rc = true ↔ fullWidthRepOk rc := by
    intro rc
    match rc with
    | none => simp [tryRefresh, fullWidthRepOk]
    | some r =>
      match hr : r.fullWidthCellComp with
      | none => simp [tryRefresh, fullWidthRepOk, hr]
      | some c =>
        match hc : c.refresh with
        | none => simp [tryRefresh, fullWidthRepOk, hr, hc]
        | some b => cases b <;> simp [tryRefresh, fullWidthRepOk, hr, hc]
  unfold refreshFullWidth
  simp only [Bool.and_eq_true, h]
  tauto

/-- Claim C7: stopEditing with cancel false on a row that is not editing
leaves the state unchanged and emits no notification, and startRowEditing on
a row that is already editing is a no op that propagates no start signal. -/
theorem editing_state_machine_noop (s1 s2 : RowState) (keyPress : Option Int)
    (charPress : Option String) (sourceCell : Option (String × Cell))
    (h1 : s1.editingRow = false) (h2 : s2.editingRow = true) :
    ((stopEditing s1 false).1 = s1 ∧ (stopEditing s1 false).2.2 = [])
  ∧ startRowEditing s2 keyPress charPress sourceCell = (s2, [], []) := by
  refine ⟨⟨?_, ?_⟩, ?_⟩
  · unfold stopEditing; simp [h1]
  · unfold stopEditing; simp [h1]
  · unfold startRowEditing; simp [h2]

/-- Witness for claim C7 at a concrete not editing and a concrete editing
state. -/
theorem editing_state_machine_noop_witness :
    (baseRowState.editingRow = false ∧ editingRowState.editingRow = true)
  ∧ (((stopEditing baseRowState false).1 = baseRowState
      ∧ (stopEditing baseRowState false).2.2 = [])
    ∧ startRowEditing editingRowState none none none
        = (editingRowState, [], [])) :=
  ⟨⟨rfl, rfl⟩,
    editing_state_machine_noop baseRowState editingRowState none none none
      rfl rfl⟩

/-- Claim C8: each get and clear call on the two second pass queues returns
everything accumulated since the previous call and empties the queue, so an
immediate second call returns the empty sequence. -/
theorem second_pass_queues_drain_once (st : RowState) :
    (getAndClearNextVMTurnFunctions st).1 = st.createSecondPassFuncs
  ∧ (getAndClearNextVMTurnFunctions st).2.createSecondPassFuncs = []
  ∧ (getAndClearNextVMTurnFunctions
      (getAndClearNextVMTurnFunctions st).2).1 = []
  ∧ (getAndClearDelayedDestroyFunctions st).1 = st.removeSecondPassFuncs
  ∧ (getAndClearDelayedDestroyFunctions st).2.removeSecondPassFuncs = []
  ∧ (getAndClearDelayedDestroyFunctions
      (getAndClearDelayedDestroyFunctions st).2).1 = [] :=
  ⟨rfl, rfl, rfl, rfl, rfl, rfl⟩

/-- Claim C10: stopEditing delivers the stop signal with the cancel flag to
every materialized cell even when the row is not editing; the early exit that
suppresses notifications happens only after this propagation, leaving the
state unchanged and the notification list empty in that case. -/
theorem stopEditing_propagates_before_exit (st : RowState) (cancel : Bool) :
    (∀ p ∈ materializedCells st, (p.1, cancel) ∈ (stopEditing st cancel).2.1)
  ∧ (st.editingRow = false →
      (stopEditing st cancel).1 = st ∧ (stopEditing st cancel).2.2 = []) := by
  constructor
  · intro p hp
    have h : (stopEditing st cancel).2.1
        = (materializedCells st).map (fun q => (q.1, cancel)) := by
      unfold stopEditing
      split <;> rfl
    rw [h]
    exact List.mem_map.mpr ⟨p, hp, rfl⟩
  · intro h
    unfold stopEditing
    simp [h]

/-- Witness for claim C10 at a not editing row holding one materialized
cell: the cell still receives the stop signal while no notification is
emitted. -/
theorem stopEditing_propagates_before_exit_witness :
    ("a", Cell.mk colA0 Container.center false) ∈ materializedCells stWithCellA
  ∧ ("a", true) ∈ (stopEditing stWithCellA true).2.1
  ∧ (stopEditing stWithCellA true).1 = stWithCellA
  ∧ (stopEditing stWithCellA true).2.2 = [] :=
  ⟨by decide,
    (stopEditing_propagates_before_exit stWithCellA true).1
      ("a", Cell.mk colA0 Container.center false) (by decide),
    ((stopEditing_propagates_before_exit stWithCellA true).2 rfl).1,
    ((stopEditing_propagates_before_exit stWithCellA true).2 rfl).2⟩

section DestroyLemmas

theorem destroyContainingCells_all_none (st : RowState) (k : String) :
    lookupCell (destroyContainingCells st).1.cellComps k = none := by
  show lookupCell
    (destroyCellsMap st.cellComps (st.cellComps.map Prod.fst)).1 k = none
  by_cases h : k ∈ st.cellComps.map Prod.fst
  · exact lookup_destroyCellsMap_mem _ _ _ h
  · rw [lookup_destroyCellsMap_not_mem _ _ _ h]
    exact lookup_eq_none_of_not_mem_keys _ _ h

theorem runSecondPass_preserves_none (l : List SecondPassFunc) (st : RowState)
    (h : ∀ k, lookupCell st.cellComps k = none) :
    ∀ k, lookupCell (runSecondPassFuncs st l).1.cellComps k = none := by
  induction l generalizing st with
  | nil => exact h
  | cons f rest ih =>
    cases f with
    | callbackFunc n => exact ih st h
    | destroyCellsFunc =>
      exact ih (destroyContainingCells st).1 (destroyContainingCells_all_none st)

theorem runSecondPass_marker_all_none (l : List SecondPassFunc) (st : RowState)
    (hm : SecondPassFunc.destroyCellsFunc ∈ l) :
    ∀ k, lookupCell (runSecondPassFuncs st l).1.cellComps k = none := by
  induction l generalizing st with
  | nil => cases hm
  | cons f rest ih =>
    cases f with
    | callbackFunc n =>
      have hr : SecondPassFunc.destroyCellsFunc ∈ rest := by
        rcases List.mem_cons.mp hm with h1 | h1
        · exact absurd h1 (by simp)
        · exact h1
      exact ih st hr
    | destroyCellsFunc =>
      exact runSecondPass_preserves_none rest (destroyContainingCells st).1
        (destroyContainingCells_all_none st)

theorem runSecondPass_preserves_queue (l : List SecondPassFunc) (st : RowState) :
    (runSecondPassFuncs st l).1.removeSecondPassFuncs
      = st.removeSecondPassFuncs := by
  induction l generalizing st with
  | nil => rfl
  | cons f rest ih =>
    cases f with
    | callbackFunc n => exact ih st
    | destroyCellsFunc => exact ih (destroyContainingCells st).1

end DestroyLemmas

/-- Claim C9: destroy with animate runs every remove first pass callback
synchronously, performs no cell teardown and leaves the cell slots in place;
the cells die only once getAndClearDelayedDestroyFunctions is invoked and its
returned functions are executed. Without animate the cells are destroyed and
the delayed destroy functions drained within the destroy call itself. -/
theorem destroy_phases (st : RowState) :
    (destroy st true).firstPassRun = st.removeFirstPassFuncs
  ∧ (destroy st true).cellActs = []
  ∧ (destroy st true).state.cellComps = st.cellComps
  ∧ (∀ k, lookupCell (runSecondPassFuncs
        (getAndClearDelayedDestroyFunctions (destroy st true).state).2
        (getAndClearDelayedDestroyFunctions
          (destroy st true).state).1).1.cellComps k = none)
  ∧ (∀ k, lookupCell (destroy st false).state.cellComps k = none)
  ∧ (destroy st false).state.removeSecondPassFuncs = [] := by
  refine ⟨rfl, rfl, rfl, ?_, ?_, ?_⟩
  · intro k
    exact runSecondPass_marker_all_none
      (st.removeSecondPassFuncs ++ [SecondPassFunc.destroyCellsFunc]) _
      (by simp) k
  · intro k
    exact runSecondPass_preserves_none
      ((getAndClearDelayedDestroyFunctions (destroyContainingCells
        { st with active := false, fullWidthRowDestroyFuncs := [] }).1).1)
      ((getAndClearDelayedDestroyFunctions (destroyContainingCells
        { st with active := false, fullWidthRowDestroyFuncs := [] }).1).2)
      (fun k2 => destroyContainingCells_all_none
        { st with active := false, fullWidthRowDestroyFuncs := [] } k2) k
  · have h6 := runSecondPass_preserves_queue
      ((getAndClearDelayedDestroyFunctions (destroyContainingCells
        { st with active := false, fullWidthRowDestroyFuncs := [] }).1).1)
      ((getAndClearDelayedDestroyFunctions (destroyContainingCells
        { st with active := false, fullWidthRowDestroyFuncs := [] }).1).2)
    exact h6.trans rfl

/-- Claim C5: in the first pass, an existing slot under the target id is
kept (a strict no op) exactly when its bound column instance is the target
column object and it does not sit in the wrong container; otherwise it is
destroyed first and a fresh cell for the target column is created in this
container. -/
theorem insertStep_keep_iff (st : RowState) (cont : Container) (col : Column)
    (cell : Cell) (hcell : lookupCell st.cellComps col.id = some cell) :
    (insertStep st cont col = (st, []) ↔
      (cell.column = col ∧ isCellInWrongContainer cell = false))
  ∧ (¬(cell.column = col ∧ isCellInWrongContainer cell = false) →
      (insertStep st cont col).2 =
          [RAction.destroyed col.id cell, RAction.created col cont]
        ∧ lookupCell (insertStep st cont col).1.cellComps col.id =
            some (Cell.mk col cont st.editingRow)) := by
  by_cases hcond : cell.column = col ∧ isCellInWrongContainer cell = false
  · refine ⟨⟨fun _ => hcond, fun _ => ?_⟩, fun hn => absurd hcond hn⟩
    simp only [insertStep, hcell]
    simp [hcond]
  · have hacts : (insertStep st cont col).2 =
        [RAction.destroyed col.id cell, RAction.created col cont] := by
      simp only [insertStep, hcell]
      simp [hcond, destroyCellsMap, hcell]
    refine ⟨⟨fun heq => ?_, fun hc => absurd hc hcond⟩, fun _ => ⟨hacts, ?_⟩⟩
    · have h2 := congrArg Prod.snd heq
      rw [hacts] at h2
      simp at h2
    · simp only [insertStep, hcell]
      simp only [if_neg hcond]
      simp [destroyCellsMap, hcell, newCellComp, lookup_setCell_self]

/-- Witness for claim C5: a slot for id a bound to a stale column instance
is destroyed first and a fresh cell bound to the new instance is created. -/
theorem insertStep_keep_iff_witness :
    lookupCell stWithCellA.cellComps colA1.id
        = some (Cell.mk colA0 Container.center false)
  ∧ ¬(insertStep stWithCellA Container.center colA1
        = (stWithCellA, []))
  ∧ (insertStep stWithCellA Container.center colA1).2 =
      [RAction.destroyed "a" (Cell.mk colA0 Container.center false),
        RAction.created colA1 Container.center]
  ∧ lookupCell (insertStep stWithCellA Container.center colA1).1.cellComps "a"
      = some (Cell.mk colA1 Container.center false) := by
  have hcell : lookupCell stWithCellA.cellComps colA1.id
      = some (Cell.mk colA0 Container.center false) := by decide
  have hcond : ¬((Cell.mk colA0 Container.center false).column = colA1
      ∧ isCellInWrongContainer (Cell.mk colA0 Container.center false) = false) := by
    decide
  have h := insertStep_keep_iff stWithCellA Container.center colA1
    (Cell.mk colA0 Container.center false) hcell
  exact ⟨hcell, fun heq => hcond ((h.1).mp heq),
    (h.2 hcond).1, (h.2 hcond).2⟩

section ReconcileLemmas

theorem set_cellComps_self (st : RowState) :
    { st with cellComps := st.cellComps } = st := by
  cases st
  rfl

theorem set_columnRefreshPending_false (st : RowState)
    (h : st.columnRefreshPending = false) :
    { st with columnRefreshPending := false } = st := by
  cases st
  simp_all

theorem set_elementOrderChanged_false (st : RowState)
    (h : st.elementOrderChanged = false) :
    { st with elementOrderChanged := false } = st := by
  cases st
  simp_all

theorem insertStep_lookup_ne (st : RowState) (cont : Container) (col : Column)
    (k : String) (h : k ≠ col.id) :
    lookupCell (insertStep st cont col).1.cellComps k
      = lookupCell st.cellComps k := by
  cases hc : lookupCell st.cellComps col.id with
  | none =>
    simp only [insertStep, hc, newCellComp]
    exact lookup_setCell_ne _ _ _ _ h
  | some cell =>
    by_cases hcond : cell.column = col ∧ isCellInWrongContainer cell = false
    · simp only [insertStep, hc, if_pos hcond]
    · simp only [insertStep, hc, if_neg hcond, newCellComp]
      rw [lookup_setCell_ne _ _ _ _ h]
      exact lookup_destroyCellsMap_not_mem _ _ _ (by simp [h])

theorem insertStep_frame (st : RowState) (cont : Container) (col : Column) :
    (insertStep st cont col).1.active = st.active
  ∧ (insertStep st cont col).1.printLayout = st.printLayout
  ∧ (insertStep st cont col).1.editingRow = st.editingRow
  ∧ (insertStep st cont col).1.columnRefreshPending
      = st.columnRefreshPending := by
  cases hc : lookupCell st.cellComps col.id with
  | none => simp [insertStep, hc, newCellComp]
  | some cell =>
    by_cases hcond : cell.column = col ∧ isCellInWrongContainer cell = false
    · simp [insertStep, hc, hcond]
    · simp [insertStep, hc, hcond, newCellComp]

theorem nodup_keys_insertStep (st : RowState) (cont : Container) (col : Column)
    (h : (st.cellComps.map Prod.fst).Nodup) :
    ((insertStep st cont col).1.cellComps.map Prod.fst).Nodup := by
  cases hc : lookupCell st.cellComps col.id with
  | none =>
    simp only [insertStep, hc, newCellComp]
    exact nodup_keys_setCell _ _ _ h
  | some cell =>
    by_cases hcond : cell.column = col ∧ isCellInWrongContainer cell = false
    · simp only [insertStep, hc, if_pos hcond]
      exact h
    · simp only [insertStep, hc, if_neg hcond, newCellComp]
      apply nodup_keys_setCell
      rw [keys_destroyCellsMap]
      exact h

theorem insertStep_noop (st : RowState) (cont : Container) (col : Column)
    (hpin : getContainerForCell col.pinned = cont)
    (hgood : goodCell st cont col) :
    insertStep st cont col = (st, []) := by
  obtain ⟨e, he⟩ := hgood
  have hw : isCellInWrongContainer (Cell.mk col cont e) = false := by
    simp [isCellInWrongContainer, hpin]
  simp only [insertStep, he]
  simp [hw]

theorem insertStep_establishes (st : RowState) (cont : Container) (col : Column)
    (hpin : getContainerForCell col.pinned = cont) :
    goodCell (insertStep st cont col).1 cont col := by
  cases hc : lookupCell st.cellComps col.id with
  | none =>
    refine ⟨st.editingRow, ?_⟩
    simp only [insertStep, hc, newCellComp]
    exact lookup_setCell_self _ _ _
  | some cell =>
    by_cases hcond : cell.column = col ∧ isCellInWrongContainer cell = false
    · refine ⟨cell.editing, ?_⟩
      have h1 : cell.column = col := hcond.1
      have h2 : cell.parentRow = cont := by
        have h3 := hcond.2
        simp only [isCellInWrongContainer, ne_eq, decide_eq_false_iff_not,
          not_not] at h3
        rw [h1] at h3
        rw [← h3, hpin]
      simp only [insertStep, hc, if_pos hcond]
      obtain ⟨cc2, cp, ce⟩ := cell
      simp only at h1 h2
      rw [h1, h2]
    · refine ⟨st.editingRow, ?_⟩
      simp only [insertStep, hc, if_neg hcond, newCellComp]
      exact lookup_setCell_self _ _ _

theorem insertCols_lookup_not_mem : ∀ (cols : List Column) (st : RowState)
    (cont : Container) (k : String), k ∉ cols.map Column.id →
    lookupCell (insertCols st cont cols).1.cellComps k
      = lookupCell st.cellComps k := by
  intro cols
  induction cols with
  | nil => intro st cont k _; rfl
  | cons col rest ih =>
    intro st cont k h
    have h1 : k ≠ col.id := fun hh => h (by simp [hh])
    have h2 : k ∉ rest.map Column.id := fun hh => h (by simp [hh])
    calc lookupCell (insertCols st cont (col :: rest)).1.cellComps k
        = lookupCell
            (insertCols (insertStep st cont col).1 cont rest).1.cellComps k :=
          rfl
      _ = lookupCell (insertStep st cont col).1.cellComps k :=
          ih (insertStep st cont col).1 cont k h2
      _ = lookupCell st.cellComps k := insertStep_lookup_ne st cont col k h1

theorem insertCols_frame : ∀ (cols : List Column) (st : RowState)
    (cont : Container),
    (insertCols st cont cols).1.active = st.active
  ∧ (insertCols st cont cols).1.printLayout = st.printLayout
  ∧ (insertCols st cont cols).1.editingRow = st.editingRow
  ∧ (insertCols st cont cols).1.columnRefreshPending
      = st.columnRefreshPending := by
  intro cols
  induction cols with
  | nil => intro st cont; exact ⟨rfl, rfl, rfl, rfl⟩
  | cons col rest ih =>
    intro st cont
    have h1 := insertStep_frame st cont col
    have h2 := ih (insertStep st cont col).1 cont
    exact ⟨h2.1.trans h1.1, h2.2.1.trans h1.2.1,
      h2.2.2.1.trans h1.2.2.1, h2.2.2.2.trans h1.2.2.2⟩

theorem nodup_keys_insertCols : ∀ (cols : List Column) (st : RowState)
    (cont : Container), (st.cellComps.map Prod.fst).Nodup →
    ((insertCols st cont cols).1.cellComps.map Prod.fst).Nodup := by
  intro cols
  induction cols with
  | nil => intro st cont h; exact h
  | cons col rest ih =>
    intro st cont h
    exact ih (insertStep st cont col).1 cont (nodup_keys_insertStep st cont col h)

theorem insertCols_establishes : ∀ (cols : List Column) (st : RowState)
    (cont : Container),
    (∀ c ∈ cols, getContainerForCell c.pinned = cont) →
    (cols.map Column.id).Nodup →
    ∀ c ∈ cols, goodCell (insertCols st cont cols).1 cont c := by
  intro cols
  induction cols with
  | nil => intro st cont _ _ c hc; cases hc
  | cons col rest ih =>
    intro st cont hpin hnd c hc
    have hnd2 : (rest.map Column.id).Nodup := (List.nodup_cons.mp hnd).2
    rcases List.mem_cons.mp hc with rfl | hc2
    · obtain ⟨e, he⟩ := insertStep_establishes st cont c (hpin c (by simp))
      refine ⟨e, ?_⟩
      have hnm : c.id ∉ rest.map Column.id := (List.nodup_cons.mp hnd).1
      calc lookupCell (insertCols st cont (c :: rest)).1.cellComps c.id
          = lookupCell
              (insertCols (insertStep st cont c).1 cont rest).1.cellComps c.id :=
            rfl
        _ = lookupCell (insertStep st cont c).1.cellComps c.id :=
            insertCols_lookup_not_mem rest _ cont c.id hnm
        _ = some (Cell.mk c cont e) := he
    · exact ih (insertStep st cont col).1 cont
        (fun x hx => hpin x (by simp [hx])) hnd2 c hc2

theorem insertCols_noop : ∀ (cols : List Column) (st : RowState)
    (cont : Container),
    (∀ c ∈ cols, getContainerForCell c.pinned = cont) →
    (∀ c ∈ cols, goodCell st cont c) →
    insertCols st cont cols = (st, []) := by
  intro cols
  induction cols with
  | nil => intro st cont _ _; rfl
  | cons col rest ih =>
    intro st cont hpin hgood
    have h1 : insertStep st cont col = (st, []) :=
      insertStep_noop st cont col (hpin col (by simp)) (hgood col (by simp))
    have h2 : insertCols st cont rest = (st, []) :=
      ih st cont (fun c hc => hpin c (by simp [hc]))
        (fun c hc => hgood c (by simp [hc]))
    simp [insertCols, h1, h2]

theorem insertCellsIntoContainer_fst (env : ColumnEnv) (st : RowState)
    (cont : Container) (cols : List Column) :
    (insertCellsIntoContainer env st cont cols).1
      = (insertCols st cont cols).1 := by
  simp only [insertCellsIntoContainer]
  split <;> rfl

theorem insertCellsIntoContainer_noop (env : ColumnEnv) (st : RowState)
    (cont : Container) (cols : List Column)
    (h : insertCols st cont cols = (st, []))
    (heoc : st.elementOrderChanged = false) :
    insertCellsIntoContainer env st cont cols = (st, []) := by
  unfold insertCellsIntoContainer
  rw [h]
  simp [heoc]

theorem foldl_erase_eq_filter : ∀ (cols : List Column) (l : List String),
    l.Nodup →
    cols.foldl (fun acc col => acc.erase col.id) l
      = l.filter (fun k => decide (k ∉ cols.map Column.id)) := by
  intro cols
  induction cols with
  | nil => intro l _; simp
  | cons c rest ih =>
    intro l h
    simp only [List.foldl_cons]
    rw [ih (l.erase c.id) (h.erase c.id)]
    rw [h.erase_eq_filter c.id]
    rw [List.filter_filter]
    apply List.filter_congr
    intro k _
    by_cases h1 : k = c.id <;> by_cases h2 : k ∈ rest.map Column.id <;>
      simp [h1, h2]

theorem mem_removalCandidates (cc lc rc : List Column) (l : List String)
    (h : l.Nodup) (k : String) :
    k ∈ rc.foldl (fun acc col => acc.erase col.id)
        (lc.foldl (fun acc col => acc.erase col.id)
          (cc.foldl (fun acc col => acc.erase col.id) l))
      ↔ (k ∈ l ∧ k ∉ (cc ++ lc ++ rc).map Column.id) := by
  rw [← List.foldl_append, ← List.foldl_append]
  rw [foldl_erase_eq_filter (cc ++ (lc ++ rc)) l h]
  simp [List.mem_filter, List.mem_append]

end ReconcileLemmas

section PassOneLemmas

theorem isCellEligible_ext (env : ColumnEnv) (s1 s2 : RowState) (k : String)
    (h : lookupCell s1.cellComps k = lookupCell s2.cellComps k) :
    isCellEligibleToBeRemoved env s1 k
      = isCellEligibleToBeRemoved env s2 k := by
  simp only [isCellEligibleToBeRemoved, h]

theorem isCellEligible_some (env : ColumnEnv) (st : RowState) (k : String)
    (cell : Cell) (h : lookupCell st.cellComps k = some cell) :
    isCellEligibleToBeRemoved env st k =
      (if getContainerForCell cell.column.pinned = cell.parentRow
          ∧ (cell.editing = true ∨ cell.column ∈ env.focusedCols)
          ∧ cell.column ∈ env.allDisplayedColumns
        then false else true) := by
  cases he : cell.editing <;> by_cases hf : cell.column ∈ env.focusedCols <;>
    by_cases hd : cell.column ∈ env.allDisplayedColumns <;>
    by_cases hw : getContainerForCell cell.column.pinned = cell.parentRow <;>
    simp [isCellEligibleToBeRemoved, h, isCellInWrongContainer, he, hf, hd, hw]

theorem refreshFrame_fst_eq (env : ColumnEnv) (st : RowState)
    (hact : st.active = true) :
    (refreshCellsInAnimationFrame env st).1 =
      { pass1State env st with cellComps :=
          (destroyCellsMap (pass1State env st).cellComps
            ((removalIds env st).filter
              (fun k => isCellEligibleToBeRemoved env (pass1State env st) k))).1
        } := by
  simp only [refreshCellsInAnimationFrame, hact, Bool.true_eq_false, if_false]
  rw [insertCellsIntoContainer_fst, insertCellsIntoContainer_fst,
    insertCellsIntoContainer_fst]
  simp only [pass1State, removalIds, hact]

theorem pass1State_frame (env : ColumnEnv) (st : RowState) :
    (pass1State env st).active = st.active
  ∧ (pass1State env st).printLayout = st.printLayout
  ∧ (pass1State env st).editingRow = st.editingRow
  ∧ (pass1State env st).elementOrderChanged = false
  ∧ (pass1State env st).columnRefreshPending = false := by
  refine ⟨?_, ?_, ?_, rfl, ?_⟩
  · show (insertCols (insertCols (insertCols
      { st with columnRefreshPending := false } Container.center
        (selCenterCols env st.printLayout)).1 Container.left
        (selLeftCols env st.printLayout)).1 Container.right
        (selRightCols env st.printLayout)).1.active = st.active
    rw [(insertCols_frame _ _ _).1, (insertCols_frame _ _ _).1,
      (insertCols_frame _ _ _).1]
  · show (insertCols (insertCols (insertCols
      { st with columnRefreshPending := false } Container.center
        (selCenterCols env st.printLayout)).1 Container.left
        (selLeftCols env st.printLayout)).1 Container.right
        (selRightCols env st.printLayout)).1.printLayout = st.printLayout
    rw [(insertCols_frame _ _ _).2.1, (insertCols_frame _ _ _).2.1,
      (insertCols_frame _ _ _).2.1]
  · show (insertCols (insertCols (insertCols
      { st with columnRefreshPending := false } Container.center
        (selCenterCols env st.printLayout)).1 Container.left
        (selLeftCols env st.printLayout)).1 Container.right
        (selRightCols env st.printLayout)).1.editingRow = st.editingRow
    rw [(insertCols_frame _ _ _).2.2.1, (insertCols_frame _ _ _).2.2.1,
      (insertCols_frame _ _ _).2.2.1]
  · show (insertCols (insertCols (insertCols
      { st with columnRefreshPending := false } Container.center
        (selCenterCols env st.printLayout)).1 Container.left
        (selLeftCols env st.printLayout)).1 Container.right
        (selRightCols env st.printLayout)).1.columnRefreshPending = false
    rw [(insertCols_frame _ _ _).2.2.2, (insertCols_frame _ _ _).2.2.2,
      (insertCols_frame _ _ _).2.2.2]

theorem pass1State_nodup (env : ColumnEnv) (st : RowState)
    (h : (st.cellComps.map Prod.fst).Nodup) :
    ((pass1State env st).cellComps.map Prod.fst).Nodup := by
  show ((insertCols (insertCols (insertCols
    { st with columnRefreshPending := false } Container.center
      (selCenterCols env st.printLayout)).1 Container.left
      (selLeftCols env st.printLayout)).1 Container.right
      (selRightCols env st.printLayout)).1.cellComps.map Prod.fst).Nodup
  apply nodup_keys_insertCols
  apply nodup_keys_insertCols
  apply nodup_keys_insertCols
  exact h

theorem pass1State_lookup_not_target (env : ColumnEnv) (st : RowState)
    (k : String) (hk : k ∉ reconcileTargetIds env st.printLayout) :
    lookupCell (pass1State env st).cellComps k = lookupCell st.cellComps k := by
  have hk3 : k ∉ (selCenterCols env st.printLayout).map Column.id
      ∧ k ∉ (selLeftCols env st.printLayout).map Column.id
      ∧ k ∉ (selRightCols env st.printLayout).map Column.id := by
    simp only [reconcileTargetIds, List.map_append, List.mem_append,
      not_or] at hk
    tauto
  show lookupCell (insertCols (insertCols (insertCols
    { st with columnRefreshPending := false } Container.center
      (selCenterCols env st.printLayout)).1 Container.left
      (selLeftCols env st.printLayout)).1 Container.right
      (selRightCols env st.printLayout)).1.cellComps k = lookupCell st.cellComps k
  rw [insertCols_lookup_not_mem _ _ _ _ hk3.2.2,
    insertCols_lookup_not_mem _ _ _ _ hk3.2.1,
    insertCols_lookup_not_mem _ _ _ _ hk3.1]

theorem targetIds_decomp (A B C : List Column)
    (h : ((A ++ B ++ C).map Column.id).Nodup) :
    (A.map Column.id).Nodup ∧ (B.map Column.id).Nodup
  ∧ (C.map Column.id).Nodup
  ∧ (∀ x ∈ A.map Column.id, x ∉ B.map Column.id ∧ x ∉ C.map Column.id)
  ∧ (∀ x ∈ B.map Column.id, x ∉ C.map Column.id) := by
  simp only [List.map_append, List.nodup_append] at h
  obtain ⟨⟨hA, hB, hAB⟩, hC, hABC⟩ := h
  refine ⟨hA, hB, hC, ?_, ?_⟩
  · intro x hx
    exact ⟨fun hb => hAB hx hb, fun hc2 => hABC (by simp [hx]) hc2⟩
  · intro x hx
    exact fun hc2 => hABC (by simp [hx]) hc2

theorem mem_targetIds_of_mem (env : ColumnEnv) (p : Bool) (c : Column)
    (hc : c ∈ selCenterCols env p ∨ c ∈ selLeftCols env p
      ∨ c ∈ selRightCols env p) :
    c.id ∈ reconcileTargetIds env p := by
  unfold reconcileTargetIds
  apply List.mem_map_of_mem
  simp only [List.mem_append]
  tauto

theorem pass1State_good_center (env : ColumnEnv) (st : RowState)
    (hpc : ∀ c ∈ selCenterCols env st.printLayout,
      getContainerForCell c.pinned = Container.center)
    (hids : ((selCenterCols env st.printLayout
      ++ selLeftCols env st.printLayout
      ++ selRightCols env st.printLayout).map Column.id).Nodup) :
    ∀ c ∈ selCenterCols env st.printLayout,
      goodCell (pass1State env st) Container.center c := by
  intro c hc
  obtain ⟨hndA, _, _, hA, _⟩ := targetIds_decomp _ _ _ hids
  have hcid := hA c.id (List.mem_map_of_mem Column.id hc)
  obtain ⟨e, he⟩ := insertCols_establishes (selCenterCols env st.printLayout)
    { st with columnRefreshPending := false } Container.center hpc hndA c hc
  refine ⟨e, ?_⟩
  show lookupCell (insertCols (insertCols (insertCols
    { st with columnRefreshPending := false } Container.center
      (selCenterCols env st.printLayout)).1 Container.left
      (selLeftCols env st.printLayout)).1 Container.right
      (selRightCols env st.printLayout)).1.cellComps c.id = _
  rw [insertCols_lookup_not_mem _ _ _ _ hcid.2,
    insertCols_lookup_not_mem _ _ _ _ hcid.1]
  exact he

theorem pass1State_good_left (env : ColumnEnv) (st : RowState)
    (hpl : ∀ c ∈ selLeftCols env st.printLayout,
      getContainerForCell c.pinned = Container.left)
    (hids : ((selCenterCols env st.printLayout
      ++ selLeftCols env st.printLayout
      ++ selRightCols env st.printLayout).map Column.id).Nodup) :
    ∀ c ∈ selLeftCols env st.printLayout,
      goodCell (pass1State env st) Container.left c := by
  intro c hc
  obtain ⟨_, hndB, _, _, hB⟩ := targetIds_decomp _ _ _ hids
  have hcid := hB c.id (List.mem_map_of_mem Column.id hc)
  obtain ⟨e, he⟩ := insertCols_establishes (selLeftCols env st.printLayout)
    (insertCols { st with columnRefreshPending := false } Container.center
      (selCenterCols env st.printLayout)).1 Container.left hpl hndB c hc
  refine ⟨e, ?_⟩
  show lookupCell (insertCols (insertCols (insertCols
    { st with columnRefreshPending := false } Container.center
      (selCenterCols env st.printLayout)).1 Container.left
      (selLeftCols env st.printLayout)).1 Container.right
      (selRightCols env st.printLayout)).1.cellComps c.id = _
  rw [insertCols_lookup_not_mem _ _ _ _ hcid]
  exact he

theorem pass1State_good_right (env : ColumnEnv) (st : RowState)
    (hpr : ∀ c ∈ selRightCols env st.printLayout,
      getContainerForCell c.pinned = Container.right)
    (hids : ((selCenterCols env st.printLayout
      ++ selLeftCols env st.printLayout
      ++ selRightCols env st.printLayout).map Column.id).Nodup) :
    ∀ c ∈ selRightCols env st.printLayout,
      goodCell (pass1State env st) Container.right c := by
  intro c hc
  obtain ⟨_, _, hndC, _, _⟩ := targetIds_decomp _ _ _ hids
  obtain ⟨e, he⟩ := insertCols_establishes (selRightCols env st.printLayout)
    (insertCols (insertCols { st with columnRefreshPending := false }
      Container.center (selCenterCols env st.printLayout)).1 Container.left
      (selLeftCols env st.printLayout)).1 Container.right hpr hndC c hc
  exact ⟨e, he⟩

theorem not_mem_removalIds_of_target (env : ColumnEnv) (st : RowState)
    (hkeys1 : ((pass1State env st).cellComps.map Prod.fst).Nodup)
    (k : String) (hk : k ∈ reconcileTargetIds env st.printLayout) :
    k ∉ removalIds env st := by
  intro hmem
  unfold removalIds at hmem
  have h2 := (mem_removalCandidates _ _ _ _ hkeys1 k).mp hmem
  exact h2.2 (by simpa [reconcileTargetIds] using hk)

theorem refresh_lookup_not_target (env : ColumnEnv) (st : RowState)
    (k : String) (hact : st.active = true)
    (hkeys : (st.cellComps.map Prod.fst).Nodup)
    (hk : k ∉ reconcileTargetIds env st.printLayout) :
    lookupCell (refreshCellsInAnimationFrame env st).1.cellComps k =
      (if isCellEligibleToBeRemoved env (pass1State env st) k = true
        then none else lookupCell (pass1State env st).cellComps k) := by
  rw [refreshFrame_fst_eq env st hact]
  show lookupCell (destroyCellsMap (pass1State env st).cellComps
    ((removalIds env st).filter
      (fun kk => isCellEligibleToBeRemoved env (pass1State env st) kk))).1 k = _
  by_cases helig : isCellEligibleToBeRemoved env (pass1State env st) k = true
  · rw [if_pos helig]
    cases hp : lookupCell (pass1State env st).cellComps k with
    | none => exact lookup_destroyCellsMap_of_none _ _ _ hp
    | some cell =>
      apply lookup_destroyCellsMap_mem
      rw [List.mem_filter]
      refine ⟨?_, helig⟩
      unfold removalIds
      rw [mem_removalCandidates _ _ _ _ (pass1State_nodup env st hkeys) k]
      refine ⟨mem_keys_of_lookup_some _ _ _ hp, ?_⟩
      simpa [reconcileTargetIds] using hk
  · rw [if_neg helig]
    have hnm : k ∉ (removalIds env st).filter
        (fun kk => isCellEligibleToBeRemoved env (pass1State env st) kk) := by
      intro hmem
      exact helig (List.mem_filter.mp hmem).2
    exact lookup_destroyCellsMap_not_mem _ _ _ hnm

theorem refreshFrame_fixpoint (env : ColumnEnv) (st : RowState)
    (hact : st.active = true)
    (heoc : st.elementOrderChanged = false)
    (hcrp : st.columnRefreshPending = false)
    (hkeys : (st.cellComps.map Prod.fst).Nodup)
    (hgc : ∀ c ∈ selCenterCols env st.printLayout,
      goodCell st Container.center c)
    (hgl : ∀ c ∈ selLeftCols env st.printLayout, goodCell st Container.left c)
    (hgr : ∀ c ∈ selRightCols env st.printLayout, goodCell st Container.right c)
    (hpc : ∀ c ∈ selCenterCols env st.printLayout,
      getContainerForCell c.pinned = Container.center)
    (hpl : ∀ c ∈ selLeftCols env st.printLayout,
      getContainerForCell c.pinned = Container.left)
    (hpr : ∀ c ∈ selRightCols env st.printLayout,
      getContainerForCell c.pinned = Container.right)
    (helig : ∀ k, k ∉ reconcileTargetIds env st.printLayout →
      isCellEligibleToBeRemoved env st k = true →
      lookupCell st.cellComps k = none) :
    refreshCellsInAnimationFrame env st = (st, []) := by
  have hcrpEq : { st with columnRefreshPending := false } = st :=
    set_columnRefreshPending_false st hcrp
  have heocEq : { st with elementOrderChanged := false } = st :=
    set_elementOrderChanged_false st heoc
  have hC : insertCellsIntoContainer env st Container.center
      (selCenterCols env st.printLayout) = (st, []) :=
    insertCellsIntoContainer_noop _ _ _ _ (insertCols_noop _ _ _ hpc hgc) heoc
  have hL : insertCellsIntoContainer env st Container.left
      (selLeftCols env st.printLayout) = (st, []) :=
    insertCellsIntoContainer_noop _ _ _ _ (insertCols_noop _ _ _ hpl hgl) heoc
  have hR : insertCellsIntoContainer env st Container.right
      (selRightCols env st.printLayout) = (st, []) :=
    insertCellsIntoContainer_noop _ _ _ _ (insertCols_noop _ _ _ hpr hgr) heoc
  have hdc : destroyCellsMap st.cellComps
      (((selRightCols env st.printLayout).foldl
        (fun acc col => acc.erase col.id)
        ((selLeftCols env st.printLayout).foldl
          (fun acc col => acc.erase col.id)
          ((selCenterCols env st.printLayout).foldl
            (fun acc col => acc.erase col.id)
            (st.cellComps.map Prod.fst)))).filter
        (fun k => isCellEligibleToBeRemoved env st k)) = (st.cellComps, []) := by
    apply destroyCellsMap_of_all_none
    intro k hkf
    have hk1 := List.mem_filter.mp hkf
    have hk2 := (mem_removalCandidates _ _ _ _ hkeys k).mp hk1.1
    refine helig k ?_ hk1.2
    simpa [reconcileTargetIds] using hk2.2
  unfold refreshCellsInAnimationFrame
  rw [if_neg (by simp [hact])]
  simp only [hcrpEq, hC, hL, hR, heocEq, hdc, set_cellComps_self]
  rfl

end PassOneLemmas

/-- Claim C1 counterexample: an editing cell bound to a left pinned column
but sitting in the center container, with the column still in the full
displayed list and absent from every target list, is destroyed by the pass
although the claim says it survives. -/
theorem refresh_removal_exemption_counterexample :
    cellC1.editing = true
  ∧ cellC1.column ∈ envC1.allDisplayedColumns
  ∧ "c1" ∉ reconcileTargetIds envC1 stC1.printLayout
  ∧ lookupCell stC1.cellComps "c1" = some cellC1
  ∧ lookupCell (refreshCellsInAnimationFrame envC1 stC1).1.cellComps "c1"
      = none := by
  decide

/-- Claim C1 as amended: a materialized slot whose id is absent from every
target list of the pass survives the pass exactly when it sits in the
correct container for the pinned state of its bound column AND it is editing
or focused AND its bound column is still in the full displayed column list;
otherwise, and in particular whenever the displayed list no longer holds the
column, the slot is destroyed regardless of editing or focus. -/
theorem refresh_removal_exemption (env : ColumnEnv) (st : RowState)
    (k : String) (cell : Cell)
    (hact : st.active = true)
    (hkeys : (st.cellComps.map Prod.fst).Nodup)
    (hcell : lookupCell st.cellComps k = some cell)
    (hk : k ∉ reconcileTargetIds env st.printLayout) :
    lookupCell (refreshCellsInAnimationFrame env st).1.cellComps k =
      (if getContainerForCell cell.column.pinned = cell.parentRow
          ∧ (cell.editing = true ∨ cell.column ∈ env.focusedCols)
          ∧ cell.column ∈ env.allDisplayedColumns
        then some cell else none) := by
  have hp1 : lookupCell (pass1State env st).cellComps k = some cell :=
    (pass1State_lookup_not_target env st k hk).trans hcell
  rw [refresh_lookup_not_target env st k hact hkeys hk]
  rw [isCellEligible_some env (pass1State env st) k cell hp1]
  by_cases hcond : getContainerForCell cell.column.pinned = cell.parentRow
      ∧ (cell.editing = true ∨ cell.column ∈ env.focusedCols)
      ∧ cell.column ∈ env.allDisplayedColumns
  · simp [hcond, hp1]
  · simp [hcond, hp1]

/-- Witness for the amended claim C1: an editing cell in its correct
container whose column is displayed but scrolled out of every target list
survives the pass. -/
theorem refresh_removal_exemption_witness :
    (stA0Edit.active = true
      ∧ (stA0Edit.cellComps.map Prod.fst).Nodup
      ∧ lookupCell stA0Edit.cellComps "a" = some cellA0Edit
      ∧ "a" ∉ reconcileTargetIds envA0Out stA0Edit.printLayout)
  ∧ lookupCell (refreshCellsInAnimationFrame envA0Out stA0Edit).1.cellComps "a"
      = some cellA0Edit := by
  refine ⟨⟨rfl, by decide, by decide, by decide⟩, ?_⟩
  rw [refresh_removal_exemption envA0Out stA0Edit "a" cellA0Edit rfl
    (by decide) (by decide) (by decide)]
  decide

/-- Claim C4: reconcile is idempotent. Under the column model contract for
one row (each target column pinned consistently with its list, target ids
pairwise distinct, cellComps keys distinct), running the reconcile pass a
second time with the same environment performs no work: it returns the same
state and an empty action list, hence zero creates, zero destroys and zero
reorders. -/
theorem reconcile_idempotent (env : ColumnEnv) (st : RowState)
    (hkeys : (st.cellComps.map Prod.fst).Nodup)
    (hids : ((selCenterCols env st.printLayout
      ++ selLeftCols env st.printLayout
      ++ selRightCols env st.printLayout).map Column.id).Nodup)
    (hpc : ∀ c ∈ selCenterCols env st.printLayout,
      getContainerForCell c.pinned = Container.center)
    (hpl : ∀ c ∈ selLeftCols env st.printLayout,
      getContainerForCell c.pinned = Container.left)
    (hpr : ∀ c ∈ selRightCols env st.printLayout,
      getContainerForCell c.pinned = Container.right) :
    refreshCellsInAnimationFrame env (refreshCellsInAnimationFrame env st).1
      = ((refreshCellsInAnimationFrame env st).1, []) := by
  cases hact : st.active with
  | false =>
    have h1 : refreshCellsInAnimationFrame env st = (st, []) := by
      unfold refreshCellsInAnimationFrame
      rw [if_pos hact]
    simp only [h1]
  | true =>
    have hst1 := refreshFrame_fst_eq env st hact
    have hfr := pass1State_frame env st
    have hact1 : (refreshCellsInAnimationFrame env st).1.active = true := by
      rw [hst1]
      exact hfr.1.trans hact
    have hply : (refreshCellsInAnimationFrame env st).1.printLayout
        = st.printLayout := by
      rw [hst1]
      exact hfr.2.1
    have heoc1 : (refreshCellsInAnimationFrame env st).1.elementOrderChanged
        = false := by
      rw [hst1]
      exact hfr.2.2.2.1
    have hcrp1 : (refreshCellsInAnimationFrame env st).1.columnRefreshPending
        = false := by
      rw [hst1]
      exact hfr.2.2.2.2
    have hkeys1 :
        ((refreshCellsInAnimationFrame env st).1.cellComps.map Prod.fst).Nodup := by
      rw [hst1]
      show ((destroyCellsMap (pass1State env st).cellComps
        ((removalIds env st).filter
          (fun k => isCellEligibleToBeRemoved env (pass1State env st) k))).1.map
            Prod.fst).Nodup
      rw [keys_destroyCellsMap]
      exact pass1State_nodup env st hkeys
    have hdestroyKeep : ∀ c : Column,
        c.id ∈ reconcileTargetIds env st.printLayout →
        lookupCell (refreshCellsInAnimationFrame env st).1.cellComps c.id
          = lookupCell (pass1State env st).cellComps c.id := by
      intro c hcid
      rw [hst1]
      show lookupCell (destroyCellsMap (pass1State env st).cellComps
        ((removalIds env st).filter
          (fun k => isCellEligibleToBeRemoved env (pass1State env st) k))).1 c.id
        = _
      apply lookup_destroyCellsMap_not_mem
      intro hmem
      exact not_mem_removalIds_of_target env st
        (pass1State_nodup env st hkeys) c.id hcid
        (List.mem_filter.mp hmem).1
    have hgc1 : ∀ c ∈ selCenterCols env
        (refreshCellsInAnimationFrame env st).1.printLayout,
        goodCell (refreshCellsInAnimationFrame env st).1 Container.center c := by
      rw [hply]
      intro c hc
      obtain ⟨e, he⟩ := pass1State_good_center env st hpc hids c hc
      exact ⟨e, (hdestroyKeep c
        (mem_targetIds_of_mem env st.printLayout c (Or.inl hc))).trans he⟩
    have hgl1 : ∀ c ∈ selLeftCols env
        (refreshCellsInAnimationFrame env st).1.printLayout,
        goodCell (refreshCellsInAnimationFrame env st).1 Container.left c := by
      rw [hply]
      intro c hc
      obtain ⟨e, he⟩ := pass1State_good_left env st hpl hids c hc
      exact ⟨e, (hdestroyKeep c
        (mem_targetIds_of_mem env st.printLayout c (Or.inr (Or.inl hc)))).trans he⟩
    have hgr1 : ∀ c ∈ selRightCols env
        (refreshCellsInAnimationFrame env st).1.printLayout,
        goodCell (refreshCellsInAnimationFrame env st).1 Container.right c := by
      rw [hply]
      intro c hc
      obtain ⟨e, he⟩ := pass1State_good_right env st hpr hids c hc
      exact ⟨e, (hdestroyKeep c
        (mem_targetIds_of_mem env st.printLayout c (Or.inr (Or.inr hc)))).trans he⟩
    have helig1 : ∀ k, k ∉ reconcileTargetIds env
        (refreshCellsInAnimationFrame env st).1.printLayout →
        isCellEligibleToBeRemoved env (refreshCellsInAnimationFrame env st).1 k
          = true →
        lookupCell (refreshCellsInAnimationFrame env st).1.cellComps k
          = none := by
      rw [hply]
      intro k hk he1
      have hchar := refresh_lookup_not_target env st k hact hkeys hk
      by_cases hel : isCellEligibleToBeRemoved env (pass1State env st) k = true
      · rw [hchar, if_pos hel]
      · exfalso
        have hlk : lookupCell (refreshCellsInAnimationFrame env st).1.cellComps k
            = lookupCell (pass1State env st).cellComps k := by
          rw [hchar, if_neg hel]
        have hext := isCellEligible_ext env
          (refreshCellsInAnimationFrame env st).1 (pass1State env st) k hlk
        rw [hext] at he1
        exact hel he1
    refine refreshFrame_fixpoint env (refreshCellsInAnimationFrame env st).1
      hact1 heoc1 hcrp1 hkeys1 hgc1 hgl1 hgr1 ?_ ?_ ?_ helig1
    · rw [hply]; exact hpc
    · rw [hply]; exact hpl
    · rw [hply]; exact hpr

/-- Witness for claim C4 with one center column and one left pinned column:
the second reconcile run is a strict no op. -/
theorem reconcile_idempotent_witness :
    ((baseRowState.cellComps.map Prod.fst).Nodup
      ∧ ((selCenterCols envAB baseRowState.printLayout
          ++ selLeftCols envAB baseRowState.printLayout
          ++ selRightCols envAB baseRowState.printLayout).map Column.id).Nodup
      ∧ (∀ c ∈ selCenterCols envAB baseRowState.printLayout,
          getContainerForCell c.pinned = Container.center)
      ∧ (∀ c ∈ selLeftCols envAB baseRowState.printLayout,
          getContainerForCell c.pinned = Container.left)
      ∧ (∀ c ∈ selRightCols envAB baseRowState.printLayout,
          getContainerForCell c.pinned = Container.right))
  ∧ refreshCellsInAnimationFrame envAB
      (refreshCellsInAnimationFrame envAB baseRowState).1
      = ((refreshCellsInAnimationFrame envAB baseRowState).1, []) :=
  ⟨⟨by decide, by decide, by decide, by decide, by decide⟩,
    reconcile_idempotent envAB baseRowState (by decide) (by decide) (by decide)
      (by decide) (by decide)⟩

end AgRow
